import Mathlib

/-!
# Verification of the transform/merge/deduplication core (`transform.py`)

A shallow embedding of `transform_data` (src/transform.py) over a pandas-style
table model: a `DF` is a list of column names together with index-labelled rows,
each row a list of cell `Value`s positionally aligned with the column list.
Floats are modelled as rationals, `NaN`/`NaT`/`None` as `Value.null`.

The embedding mirrors the source statement by statement; each stage definition
cites the line numbers of `transform.py` it translates.  Because the source
mutates the caller's sales DataFrame in place (column renames at line 58,
`fillna` at line 64, coercions at lines 75-76, added columns at lines 81-82 and
97), the embedded `transform_data` additionally returns the final state of the
caller-owned sales object, obtained by tracing which Python statements mutate
the object bound to `sales_df` and which merely rebind the local name.
-/

namespace Transform

/-- A calendar date (pandas `Timestamp` at day resolution). -/
structure Date where
  year : Nat
  month : Nat
  day : Nat
deriving DecidableEq, Repr

/-- A pandas cell value.  Floats are rationals; `NaN`, `NaT` and `None` are
`null`; `tstamp` is a `pd.to_datetime(·, unit='s')` epoch-seconds timestamp. -/
inductive Value where
  | null : Value
  | int : Int → Value
  | rat : Rat → Value
  | str : String → Value
  | date : Date → Value
  | tstamp : Int → Value
deriving DecidableEq, Repr

/-- A pandas DataFrame: column names and index-labelled rows; cell `j` of a row
holds the value of column `cols[j]`.  (pandas frames are rectangular; the
`Rect` predicate below captures that invariant for universally quantified
inputs.) -/
structure DF where
  cols : List String
  rows : List (Int × List Value)
deriving DecidableEq, Repr

/-- `pd.DataFrame()`: the fully empty frame. -/
def DF.emptyDF : DF := { cols := [], rows := [] }

/-- `df.empty`: true when either axis has length zero. -/
def DF.empty (df : DF) : Bool := df.rows.isEmpty || df.cols.isEmpty

/-- Rectangularity: every row has exactly one cell per column. -/
def DF.Rect (df : DF) : Prop := ∀ r ∈ df.rows, (r.2 : List Value).length = df.cols.length

/-- Position of a column name in a column list. -/
def colIdx : List String → String → Option Nat
  | [], _ => none
  | c :: cs, d => if c = d then some 0 else (colIdx cs d).map (· + 1)

/-- `df[c]` for one row: the cell aligned with column `c` (none when the column
is absent). -/
def getCell (cols : List String) (cells : List Value) (c : String) : Option Value :=
  (colIdx cols c).bind fun j => cells.get? j

/-- `df[c]` as a list of per-row cells. -/
def DF.col? (df : DF) (c : String) : List (Option Value) :=
  df.rows.map fun r => getCell df.cols r.2 c

/-- The `src` cell of a row, defaulting to `null` when the column is absent. -/
def readCell (cols : List String) (src : String) (cs : List Value) : Value :=
  ((colIdx cols src).bind cs.get?).getD Value.null

/-- `df[c] = f(df[src])` element-wise: pandas column assignment replaces the
column in place when `c` already exists and appends it at the end otherwise.
`f` receives the row's `src` cell (`null` when `src` is absent; the source
would raise a `KeyError` there, so theorems about this stage assume the §6
input contract under which the source columns exist). -/
def DF.setColFrom (df : DF) (c src : String) (f : Value → Value) : DF :=
  match colIdx df.cols c with
  | some j => { df with rows := df.rows.map fun r => (r.1, r.2.set j (f (readCell df.cols src r.2))) }
  | none =>
      { cols := df.cols ++ [c],
        rows := df.rows.map fun r => (r.1, r.2 ++ [f (readCell df.cols src r.2)]) }

/-- Drop a column (`df.drop(columns=[c])`). -/
def DF.dropCol (df : DF) (c : String) : DF :=
  match colIdx df.cols c with
  | some j => { cols := df.cols.eraseIdx j, rows := df.rows.map fun r => (r.1, r.2.eraseIdx j) }
  | none => df

/-- Apply a column-name renaming map (`df.rename(columns=...)`). -/
def renameWith (m : List (String × String)) (c : String) : String :=
  match m.find? (fun p => p.1 = c) with
  | some p => p.2
  | none => c

def DF.rename (df : DF) (m : List (String × String)) : DF :=
  { df with cols := df.cols.map (renameWith m) }

/-- `col.lower().replace(' ', '_')` (line 54/56/58). -/
def stdName (s : String) : String :=
  ⟨s.data.map fun c => if c.toLower = ' ' then '_' else c.toLower⟩

/-- Lines 53-58: standardize all column names. -/
def DF.stdCols (df : DF) : DF := { df with cols := df.cols.map stdName }

/-! ## Scalar parsing (`pd.to_numeric` / `pd.to_datetime`, both `errors='coerce'`) -/

def digitVal (c : Char) : Option Nat :=
  if c.isDigit then some (c.toNat - 48) else none

def parseNatDigits (cs : List Char) : Option Nat :=
  cs.foldl (fun acc c => acc.bind fun n => (digitVal c).map fun d => n * 10 + d) (some 0)

/-- Decimal-literal parsing, the fragment of `pd.to_numeric` float parsing the
repository's data exercises: optional surrounding whitespace, optional sign,
digits with at most one decimal point, at least one digit. -/
def parseDecimal (s : String) : Option Rat :=
  let cs := (s.data.dropWhile (·.isWhitespace)).reverse.dropWhile (·.isWhitespace) |>.reverse
  let (sign, cs) : Int × List Char :=
    match cs with
    | '-' :: rest => (-1, rest)
    | '+' :: rest => (1, rest)
    | _ => (1, cs)
  let intPart := cs.takeWhile (·.isDigit)
  let rest := cs.dropWhile (·.isDigit)
  match rest with
  | [] =>
      if intPart.isEmpty then none
      else (parseNatDigits intPart).map fun n => (sign * n : Int)
  | '.' :: frac =>
      if frac.all (·.isDigit) && !(intPart.isEmpty && frac.isEmpty) then
        match parseNatDigits intPart, parseNatDigits frac with
        | some iv, some fv =>
            some ((sign : Rat) * ((iv : Rat) + (fv : Rat) / ((10 : Rat) ^ frac.length)))
        | _, _ => none
      else none
  | _ => none

/-- `pd.to_numeric(v, errors='coerce')` on one cell. -/
def toNumeric : Value → Option Rat
  | .int n => some n
  | .rat q => some q
  | .str s => parseDecimal s
  | _ => none

/-- Gregorian leap year. -/
def isLeap (y : Nat) : Bool := (y % 4 == 0 && y % 100 != 0) || y % 400 == 0

def daysInMonth (y m : Nat) : Nat :=
  if m = 2 then (if isLeap y then 29 else 28)
  else if m = 4 || m = 6 || m = 9 || m = 11 then 30
  else 31

def splitCharAux (sep : Char) : List Char → List Char → List (List Char)
  | [], acc => [acc.reverse]
  | c :: cs, acc =>
      if c = sep then acc.reverse :: splitCharAux sep cs []
      else splitCharAux sep cs (c :: acc)

/-- ISO `YYYY-MM-DD` date parsing, the format the repository's sales data uses;
anything else coerces to `NaT` (= `null`), matching `errors='coerce'`. -/
def parseDateStr (s : String) : Option Date :=
  match splitCharAux '-' s.data [] with
  | [ys, ms, ds] =>
      if ys ≠ [] && ms ≠ [] && ds ≠ [] &&
         ys.all (·.isDigit) && ms.all (·.isDigit) && ds.all (·.isDigit) then
        match parseNatDigits ys, parseNatDigits ms, parseNatDigits ds with
        | some y, some m, some d =>
            if 1 ≤ m && m ≤ 12 && 1 ≤ d && d ≤ daysInMonth y m then
              some ⟨y, m, d⟩
            else none
        | _, _, _ => none
      else none
  | _ => none

/-- `pd.to_datetime(v, errors='coerce')` on one cell. -/
def toDatetime : Value → Value
  | .str s =>
      match parseDateStr s with
      | some d => .date d
      | none => .null
  | .date d => .date d
  | _ => .null

/-- Days of the proleptic Gregorian calendar before January 1 of year `y`. -/
def daysBeforeYear (y : Nat) : Nat :=
  365 * (y - 1) + (y - 1) / 4 - (y - 1) / 100 + (y - 1) / 400

def daysBeforeMonth (y m : Nat) : Nat :=
  (List.range (m - 1)).foldl (fun acc i => acc + daysInMonth y (i + 1)) 0

/-- Day of week, 0 = Monday (Jan 1, year 1 was a Monday). -/
def dayOfWeek (d : Date) : Nat :=
  (daysBeforeYear d.year + daysBeforeMonth d.year d.month + d.day - 1) % 7

def dayName (n : Nat) : String :=
  (["Monday", "Tuesday", "Wednesday", "Thursday", "Friday", "Saturday", "Sunday"].get? n).getD ""

/-- `series.dt.month` on one cell (`NaN` on `NaT`). -/
def monthVal : Value → Value
  | .date d => .int d.month
  | _ => .null

/-- `series.dt.day_name()` on one cell. -/
def dayNameVal : Value → Value
  | .date d => .str (dayName (dayOfWeek d))
  | _ => .null

/-! ## Source inputs (§6 of the spec) -/

/-- The weather API dict as `transform_data` reads it: `weather_data.get('name')`,
`.get('main', {}).get('temp')`, `.get('weather', [{}])[0].get('description')`,
`.get('main', {}).get('humidity')`, `.get('wind', {}).get('speed')`, `.get('dt')`
(lines 30-38).  A `none` field models a missing key.  The whole input is
`Option WeatherData`: `none` is a falsy (absent/empty) dict. -/
structure WeatherData where
  name : Option String
  mainTemp : Option Rat
  weatherDescription : Option String
  mainHumidity : Option Rat
  windSpeed : Option Rat
  dt : Option Int
deriving DecidableEq, Repr

/-- One scraped listing dict: keys `title`, `price`, `availability` in insertion
order (extract.py lines 142-146). -/
structure ScrapedItem where
  title : String
  price : String
  availability : String
deriving DecidableEq, Repr

def optVal (f : α → Value) : Option α → Value
  | some a => f a
  | none => .null

def weatherCols : List String :=
  ["city", "temperature_celsius", "weather_condition", "humidity_percent",
   "wind_speed_m_s", "report_timestamp"]

/-- Lines 30-41: `weather_df`, one row when the dict is truthy and an empty
frame with the full weather column set otherwise. -/
def mkWeatherDF : Option WeatherData → DF
  | some w =>
      { cols := weatherCols,
        rows := [(0, [optVal .str w.name, optVal .rat w.mainTemp,
                      optVal .str w.weatherDescription, optVal .rat w.mainHumidity,
                      optVal .rat w.windSpeed, optVal .tstamp w.dt])] }
  | none => { cols := weatherCols, rows := [] }

/-- Rows with the default 0-based `RangeIndex`, starting at `start`. -/
def rangeRows (start : Int) : List (List Value) → List (Int × List Value)
  | [] => []
  | v :: rest => (start, v) :: rangeRows (start + 1) rest

/-- Lines 43-46: `scraped_df = pd.DataFrame(scraped_data)` (default
`RangeIndex`, columns in dict insertion order), or the fully empty frame. -/
def mkScrapedDF (items : List ScrapedItem) : DF :=
  match items with
  | [] => DF.emptyDF
  | _ =>
      { cols := ["title", "price", "availability"],
        rows := rangeRows 0 (items.map fun it => [.str it.title, .str it.price, .str it.availability]) }

/-! ## Source Normalizer stages -/

/-- `series.str.replace('£', '')` on one cell (line 69): strips the glyph from a
string; the `.str` accessor turns any non-string into `NaN`. -/
def stripPound : Value → Value
  | .str s => .str ⟨s.data.filter fun c => c ≠ '£'⟩
  | _ => .null

/-- `fillna(q)` on one cell; a `none` fill value is `fillna(NaN)`, a no-op. -/
def fillnaVal (fill : Option Rat) : Value → Value
  | .null => match fill with
             | some q => .rat q
             | none => .null
  | v => v

/-- `series.mean()`: arithmetic mean of the non-null numeric cells, `NaN`
(= `none`) when there are none. -/
def meanCol (vs : List (Option Value)) : Option Rat :=
  let nums := vs.filterMap fun v => v.bind toNumeric
  if nums.isEmpty then none else some (nums.sum / (nums.length : Rat))

/-- Lines 62-64: fill missing `sale_amount` with the batch mean (guarded by
non-emptiness and column presence in `transform_data`). -/
def imputeSaleAmount (df : DF) : DF :=
  df.setColFrom "sale_amount" "sale_amount" (fillnaVal (meanCol (df.col? "sale_amount")))

/-- Line 76 cell function: `pd.to_numeric(v, errors='coerce')`, `fillna(0)`,
`astype(int)` (a C-style truncation toward zero). -/
def pidCoerce (v : Value) : Value :=
  .int (let q := (toNumeric v).getD 0; q.num / (q.den : Int))

/-- Lines 74-76: coerce `sale_date` to datetime and `product_id` to int. -/
def coerceSalesTypes (df : DF) : DF :=
  (df.setColFrom "sale_date" "sale_date" toDatetime).setColFrom "product_id" "product_id" pidCoerce

/-- Lines 80-82: derive `sale_month` and `sale_day_name` from `sale_date`. -/
def addDateFeatures (df : DF) : DF :=
  (df.setColFrom "sale_month" "sale_date" monthVal).setColFrom "sale_day_name" "sale_date" dayNameVal

/-- Line 70-71 cell function: price after glyph strip, numeric coercion and
`fillna(0.0)`. -/
def priceCoerce (v : Value) : Value :=
  fillnaVal (some 0) (match toNumeric (stripPound v) with
                      | some q => .rat q
                      | none => .null)

/-- Lines 68-73: scraped typing — build `book_price_gbp` from `price`, drop
`price`, rename `title`/`availability`. -/
def normScraped (df : DF) : DF :=
  (((df.setColFrom "book_price_gbp" "price" priceCoerce).dropCol "price").rename
    [("title", "book_title"), ("availability", "book_availability")])

/-! ## Broadcast Merger, Positional Joiner, Deduplicator -/

/-- `weather_df[c].iloc[0]` (line 97). -/
def DF.firstVal (df : DF) (c : String) : Value :=
  match df.rows with
  | [] => .null
  | r :: _ => (getCell df.cols r.2 c).getD .null

/-- Lines 95-99: `for col in weather_df.columns: sales_df[col] = weather_df[col].iloc[0]`
— scalar broadcast of the single weather row into every sales row. -/
def broadcastWeather (weather_df sales_df : DF) : DF :=
  weather_df.cols.foldl (fun df c => df.setColFrom c c fun _ => weather_df.firstVal c) sales_df

/-- Lines 108-114: `pd.merge(left, right, how='left', left_index=True,
right_index=True)` — every left row is kept in order; a left row labelled `ℓ`
takes the cells of the right row carrying the same index label, or nulls when
no right row has that label.  (The right frame here is `scraped_df`, whose
default `RangeIndex` is duplicate-free, so no row multiplication occurs; the
two column sets are disjoint under the §6 contract, so no suffixing occurs.) -/
def mergeOnIndex (left right : DF) : DF :=
  { cols := left.cols ++ right.cols,
    rows := left.rows.map fun r =>
      match right.rows.find? (fun r' => r'.1 = r.1) with
      | some r' => (r.1, r.2 ++ r'.2)
      | none => (r.1, r.2 ++ right.cols.map fun _ => Value.null) }

/-- Line 124: the composite key columns. -/
def subsetCols : List String := ["product_id", "sale_date", "sale_amount"]

/-- The composite key of one row. -/
def rowKey (cols : List String) (cells : List Value) : List (Option Value) :=
  subsetCols.map (getCell cols cells)

/-- `drop_duplicates(subset, keep='first')` core: keep each element whose key
has not occurred earlier in the list. -/
def keepFirst (key : α → β) [DecidableEq β] (seen : List β) : List α → List α
  | [] => []
  | x :: xs =>
      if key x ∈ seen then keepFirst key seen xs
      else x :: keepFirst key (key x :: seen) xs

/-- Line 132: `drop_duplicates(subset=subset_cols, keep='first')`. -/
def DF.dropDuplicates (df : DF) : DF :=
  { df with rows := keepFirst (fun r => rowKey df.cols r.2) [] df.rows }

/-- Line 127: `final_df.duplicated(subset=subset_cols).sum()` — the number of
rows that duplicate an earlier row's key. -/
def dupCount (df : DF) : Nat := df.rows.length - df.dropDuplicates.rows.length

/-! ## Unification Orchestrator

`transform_data` interleaves the per-source normalization statements (sales at
lines 48-49/57-58/62-64/74-76/80-82, weather at lines 30-41/53-54, scraped at
lines 43-46/55-56/68-73), but the three normalizations share no state, so they
are grouped here into one definition per source, sequenced in source order
within each source.  The scraped and weather frames are normalized before the
line-88 empty-sales check in the source; both computations are pure, so calling
them only on the non-empty path below is observationally identical. -/

/-- Whether the sales input is absent or empty (line 48). -/
def salesAbsent : Option DF → Bool
  | none => true
  | some df => df.empty

/-- Lines 30-41 and 53-54: the normalized weather frame. -/
def normWeatherDF (weather_data : Option WeatherData) : DF :=
  let weather_df := mkWeatherDF weather_data
  if weather_df.empty then weather_df else weather_df.stdCols

/-- Lines 43-46, 55-56 and 68-73: the normalized scraped frame. -/
def normScrapedDF (scraped_data : List ScrapedItem) : DF :=
  let scraped_df := mkScrapedDF scraped_data
  let scraped_df := if scraped_df.empty then scraped_df else scraped_df.stdCols
  if !scraped_df.empty then normScraped scraped_df else scraped_df

/-- Lines 48-49, 57-58, 62-64, 74-76 and 80-82: the normalized sales frame. -/
def normSalesDF (sales_df0 : Option DF) : DF :=
  let sales_df := match sales_df0 with
                  | none => DF.emptyDF
                  | some df => if df.empty then DF.emptyDF else df
  let sales_df := if sales_df.empty then sales_df else sales_df.stdCols
  let sales_df := if !sales_df.empty && sales_df.cols.contains "sale_amount" then
                    imputeSaleAmount sales_df
                  else sales_df
  let sales_df := if !sales_df.empty then coerceSalesTypes sales_df else sales_df
  if !sales_df.empty && sales_df.cols.contains "sale_date" then
    addDateFeatures sales_df
  else sales_df

/-- Lines 95-101: broadcast the weather row unless the weather frame is empty. -/
def weatherStep (weather_df sales_df : DF) : DF :=
  if !weather_df.empty then broadcastWeather weather_df sales_df else sales_df

/-- Lines 104-117: index-label merge unless the scraped frame is empty. -/
def joinStep (scraped_df merged_df : DF) : DF :=
  if !scraped_df.empty then mergeOnIndex merged_df scraped_df else merged_df

/-- Lines 127-142: count duplicate keys, drop them when any exist. -/
def dedupStep (final_df : DF) : DF :=
  if dupCount final_df > 0 then final_df.dropDuplicates else final_df

/-- The fully joined table handed to the Deduplicator. -/
def preDedup (weather_data : Option WeatherData) (sales_df0 : Option DF)
    (scraped_data : List ScrapedItem) : DF :=
  joinStep (normScrapedDF scraped_data) (weatherStep (normWeatherDF weather_data) (normSalesDF sales_df0))

/-- `transform_data` (lines 26-150).  The result pairs the returned frame with
the final state of the caller-owned sales DataFrame: the weather dict and the
scraped list are only ever read (and `pd.DataFrame(scraped_data)` copies), but
`sales_df` aliases the caller's object and is mutated in place by lines 58, 64,
75-76, 81-82 and 97; line 49 merely rebinds the local name, and `pd.merge`
(line 108) and `drop_duplicates` (line 132) build fresh frames.  Hence the
caller's object ends in the state `sales_df` has after the weather-broadcast
step whenever it entered non-empty, and is untouched otherwise. -/
def transform_data (weather_data : Option WeatherData) (sales_df0 : Option DF)
    (scraped_data : List ScrapedItem) : DF × Option DF :=
  let sales_df := normSalesDF sales_df0
  -- lines 88-90
  if sales_df.empty then (DF.emptyDF, sales_df0)
  else
    (dedupStep (preDedup weather_data sales_df0 scraped_data),
     some (weatherStep (normWeatherDF weather_data) sales_df))

/-! ## Spec-side comparison definitions (for the refinement claim) -/

/-- Positional pairing: each left row receives the cells of the right row at
the same position, `nulls` when the right list is exhausted. -/
def posJoinRows (rights : List (Int × List Value)) (nulls : List Value) :
    List (Int × List Value) → List (Int × List Value)
  | [] => []
  | r :: rest =>
      (r.1, r.2 ++ (match rights with | r' :: _ => r'.2 | [] => nulls)) ::
        posJoinRows (rights.drop 1) nulls rest

/-- Modelled from the spec's words (§4.3 Positional Joiner): "row *i* of sales
receives row *i* of listings"; a left join, missing positions get null book
fields; an empty listings table passes sales rows through unchanged.  This is
the comparison target for the refinement claim, not a translation of the
source (the source joins on index labels). -/
def positionalJoinSpec (left right : DF) : DF :=
  if right.rows.isEmpty then left
  else
    { cols := left.cols ++ right.cols,
      rows := posJoinRows right.rows (right.cols.map fun _ => Value.null) left.rows }

/-- The fully normalized cells of one scraped listing: `book_title`,
`book_availability`, `book_price_gbp`. -/
def bookCells (it : ScrapedItem) : List Value :=
  [.str it.title, .str it.availability, priceCoerce (.str it.price)]

/-! ## Concrete instances (used by counterexamples and witnesses) -/

/-- Scenario A of §8: two sales rows, one missing `sale_amount`. -/
def salesScenA : DF :=
  { cols := ["product_id", "sale_date", "sale_amount"],
    rows := [(0, [.int 1, .str "2023-01-01", .null]),
             (1, [.int 1, .str "2023-01-01", .rat 10])] }

/-- The unified frame Scenario A produces. -/
def outScenA : DF :=
  { cols := ["product_id", "sale_date", "sale_amount", "sale_month", "sale_day_name"],
    rows := [(0, [.int 1, .date ⟨2023, 1, 1⟩, .rat 10, .int 1, .str "Sunday"])] }

/-- Scenario C of §8: the London weather reading. -/
def wLondon : WeatherData :=
  { name := some "London", mainTemp := some 5, weatherDescription := some "Rain",
    mainHumidity := some 80, windSpeed := some 3, dt := some 1672531200 }

/-- A three-row sales frame with distinct keys (Scenario C). -/
def sales3 : DF :=
  { cols := ["product_id", "sale_date", "sale_amount"],
    rows := [(0, [.int 1, .str "2023-01-01", .rat 1]),
             (1, [.int 2, .str "2023-01-02", .rat 2]),
             (2, [.int 3, .str "2023-01-03", .rat 3])] }

/-- A sales frame whose index labels are swapped (not the default 0,1). -/
def salesSwapped : DF :=
  { cols := ["product_id", "sale_date", "sale_amount"],
    rows := [(1, [.int 1, .str "2023-01-01", .rat 5]),
             (0, [.int 2, .str "2023-01-02", .rat 6])] }

/-- A sales frame carrying a negative `product_id`. -/
def salesNegPid : DF :=
  { cols := ["product_id", "sale_date", "sale_amount"],
    rows := [(0, [.str "-5", .str "2023-01-01", .rat 1])] }

def bookA : ScrapedItem := { title := "Book A", price := "£1.50", availability := "In stock" }

def bookB : ScrapedItem := { title := "Book B", price := "£2.25", availability := "In stock" }

/-- A joined frame with a duplicated composite key (for the dedup witness). -/
def dupJoined : DF :=
  { cols := ["product_id", "sale_date", "sale_amount"],
    rows := [(0, [.int 1, .date ⟨2023, 1, 1⟩, .rat 10]),
             (1, [.int 2, .date ⟨2023, 1, 2⟩, .rat 7]),
             (2, [.int 1, .date ⟨2023, 1, 1⟩, .rat 10])] }

/-- The unified frame produced from `salesSwapped` with listings
`[bookA, bookB]` and no weather: the first sales row (labelled 1) receives
`bookB`, the listing at *position* 1, not position 0. -/
def outSwapped : DF :=
  { cols := ["product_id", "sale_date", "sale_amount", "sale_month", "sale_day_name",
             "book_title", "book_availability", "book_price_gbp"],
    rows := [(1, [.int 1, .date ⟨2023, 1, 1⟩, .rat 5, .int 1, .str "Sunday",
                  .str "Book B", .str "In stock", .rat (9 / 4)]),
             (0, [.int 2, .date ⟨2023, 1, 2⟩, .rat 6, .int 1, .str "Monday",
                  .str "Book A", .str "In stock", .rat (3 / 2)])] }

/-! ## Lemma toolkit: column lookup -/

theorem colIdx_lt_length {cols : List String} {c : String} {j : Nat}
    (h : colIdx cols c = some j) : j < cols.length := by
  induction cols generalizing j with
  | nil => simp [colIdx] at h
  | cons a as ih =>
    by_cases hac : a = c
    · simp [colIdx, hac] at h
      simp [← h]
    · simp only [colIdx, hac, if_false, Option.map_eq_some'] at h
      obtain ⟨k, hk, rfl⟩ := h
      have := ih hk
      simp only [List.length_cons]
      omega

theorem colIdx_get {cols : List String} {c : String} {j : Nat}
    (h : colIdx cols c = some j) : cols.get? j = some c := by
  induction cols generalizing j with
  | nil => simp [colIdx] at h
  | cons a as ih =>
    by_cases hac : a = c
    · simp [colIdx, hac] at h
      simp [← h, hac]
    · simp only [colIdx, hac, if_false, Option.map_eq_some'] at h
      obtain ⟨k, hk, rfl⟩ := h
      simpa using ih hk

theorem colIdx_eq_none_iff {cols : List String} {c : String} :
    colIdx cols c = none ↔ c ∉ cols := by
  induction cols with
  | nil => simp [colIdx]
  | cons a as ih =>
    by_cases hac : a = c
    · simp [colIdx, hac]
    · have hca : ¬c = a := fun e => hac e.symm
      simp [colIdx, hac, hca, Option.map_eq_none', ih]

theorem colIdx_append_left {cols more : List String} {c : String} {j : Nat}
    (h : colIdx cols c = some j) : colIdx (cols ++ more) c = some j := by
  induction cols generalizing j with
  | nil => simp [colIdx] at h
  | cons a as ih =>
    by_cases hac : a = c
    · simp [colIdx, hac] at h ⊢
      exact h
    · simp only [colIdx, hac, if_false, Option.map_eq_some'] at h
      obtain ⟨k, hk, rfl⟩ := h
      simp only [List.cons_append, colIdx, hac, if_false, Option.map_eq_some']
      exact ⟨k, ih hk, rfl⟩

theorem colIdx_append_self {cols : List String} {c : String} (h : c ∉ cols) :
    colIdx (cols ++ [c]) c = some cols.length := by
  induction cols with
  | nil => simp [colIdx]
  | cons a as ih =>
    simp only [List.mem_cons, not_or] at h
    have hac : ¬a = c := fun e => h.1 e.symm
    simp [colIdx, hac, ih h.2]

/-! ## Lemma toolkit: column assignment -/

theorem setColFrom_length (df : DF) (c src : String) (f : Value → Value) :
    (df.setColFrom c src f).rows.length = df.rows.length := by
  unfold DF.setColFrom
  cases h : colIdx df.cols c <;> simp

theorem setColFrom_rect {df : DF} (hrect : df.Rect) (c src : String) (f : Value → Value) :
    (df.setColFrom c src f).Rect := by
  unfold DF.setColFrom
  cases h : colIdx df.cols c with
  | none =>
    intro r hr
    simp only [List.mem_map] at hr
    obtain ⟨r₀, hr₀, rfl⟩ := hr
    simp [hrect r₀ hr₀]
  | some j =>
    intro r hr
    simp only [List.mem_map] at hr
    obtain ⟨r₀, hr₀, rfl⟩ := hr
    simp [hrect r₀ hr₀]

/-- Column assignment, row by row: row `i` keeps its label, its `c` cell becomes
`f` of its `src` cell, and every other column is untouched. -/
theorem setColFrom_get {df : DF} (hrect : df.Rect) {i : Nat} {r : Int × List Value}
    (hi : df.rows.get? i = some r) (c src : String) (f : Value → Value) :
    ∃ cs', (df.setColFrom c src f).rows.get? i = some (r.1, cs') ∧
      getCell (df.setColFrom c src f).cols cs' c = some (f (readCell df.cols src r.2)) ∧
      ∀ d, d ≠ c → getCell (df.setColFrom c src f).cols cs' d = getCell df.cols r.2 d := by
  have hrlen : r.2.length = df.cols.length := hrect r (List.get?_mem hi)
  unfold DF.setColFrom
  cases hm : colIdx df.cols c with
  | some j =>
    have hj : j < df.cols.length := colIdx_lt_length hm
    refine ⟨r.2.set j (f (readCell df.cols src r.2)), ?_, ?_, ?_⟩
    · rw [List.get?_map, hi]
      rfl
    · simp only [getCell, hm, Option.some_bind]
      rw [List.get?_set_eq_of_lt]
      omega
    · intro d hd
      simp only [getCell]
      cases hmd : colIdx df.cols d with
      | none => simp
      | some j' =>
        have hd' : df.cols.get? j' = some d := colIdx_get hmd
        have hjc : df.cols.get? j = some c := colIdx_get hm
        have hne : j ≠ j' := by
          intro e
          rw [e, hd'] at hjc
          exact hd (by injection hjc)
        simp [List.getElem?_set_ne hne]
  | none =>
    have hcn : c ∉ df.cols := colIdx_eq_none_iff.mp hm
    refine ⟨r.2 ++ [f (readCell df.cols src r.2)], ?_, ?_, ?_⟩
    · rw [List.get?_map, hi]
      rfl
    · simp only [getCell, colIdx_append_self hcn, Option.some_bind]
      rw [← hrlen, List.get?_append_right (Nat.le_refl _)]
      simp
    · intro d hd
      simp only [getCell]
      cases hmd : colIdx df.cols d with
      | none =>
        have hdn : d ∉ df.cols := colIdx_eq_none_iff.mp hmd
        have hdn' : d ∉ df.cols ++ [c] := by
          simp only [List.mem_append, List.mem_singleton]
          rintro (h | h)
          · exact hdn h
          · exact hd h
        rw [colIdx_eq_none_iff.mpr hdn']
        simp
      | some j' =>
        rw [colIdx_append_left hmd]
        have hj' : j' < r.2.length := hrlen ▸ colIdx_lt_length hmd
        simp [List.getElem?_append_left hj']

/-! ## Lemma toolkit: keep-first deduplication -/

variable {α β : Type} [DecidableEq β]

theorem keepFirst_sublist (key : α → β) (seen : List β) (l : List α) :
    (keepFirst key seen l).Sublist l := by
  induction l generalizing seen with
  | nil => simp [keepFirst]
  | cons x xs ih =>
    unfold keepFirst
    by_cases h : key x ∈ seen
    · rw [if_pos h]
      exact (ih seen).cons x
    · rw [if_neg h]
      exact (ih _).cons₂ x

theorem keepFirst_key_not_mem_seen (key : α → β) {seen : List β} {l : List α}
    {y : α} (hy : y ∈ keepFirst key seen l) : key y ∉ seen := by
  induction l generalizing seen with
  | nil => simp [keepFirst] at hy
  | cons x xs ih =>
    unfold keepFirst at hy
    by_cases h : key x ∈ seen
    · rw [if_pos h] at hy
      exact ih hy
    · rw [if_neg h] at hy
      rcases List.mem_cons.mp hy with rfl | hy'
      · exact h
      · exact fun hmem => ih hy' (List.mem_cons_of_mem _ hmem)

theorem keepFirst_filter_eq (key : α → β) {seen : List β} (l : List α) (b : β)
    (hb : b ∉ seen) :
    (keepFirst key seen l).filter (fun y => decide (key y = b)) =
      match l.find? (fun y => decide (key y = b)) with
      | some x => [x]
      | none => [] := by
  induction l generalizing seen with
  | nil => simp [keepFirst]
  | cons x xs ih =>
    unfold keepFirst
    by_cases hx : key x = b
    · have hxs : key x ∉ seen := hx ▸ hb
      rw [if_neg hxs, List.filter_cons, List.find?_cons]
      simp only [hx, decide_True, if_true]
      congr 1
      rw [List.filter_eq_nil_iff]
      intro y hy
      have := keepFirst_key_not_mem_seen key hy
      simp only [decide_eq_true_eq]
      intro he
      exact this (by rw [he, ← hx]; exact List.mem_cons_self _ _)
    · by_cases hxs : key x ∈ seen
      · rw [if_pos hxs, List.find?_cons]
        simp only [hx, decide_False, Bool.false_eq_true, if_false]
        exact ih hb
      · rw [if_neg hxs, List.filter_cons, List.find?_cons]
        simp only [hx, decide_False, Bool.false_eq_true, if_false]
        have hb' : b ∉ key x :: seen := by
          simp only [List.mem_cons, not_or]
          exact ⟨fun e => hx e.symm, hb⟩
        exact ih hb'

theorem keepFirst_keys_nodup (key : α → β) (seen : List β) (l : List α) :
    ((keepFirst key seen l).map key).Nodup := by
  induction l generalizing seen with
  | nil => simp [keepFirst]
  | cons x xs ih =>
    unfold keepFirst
    by_cases h : key x ∈ seen
    · rw [if_pos h]
      exact ih seen
    · rw [if_neg h, List.map_cons]
      refine List.nodup_cons.mpr ⟨?_, ih _⟩
      intro hmem
      obtain ⟨y, hy, hkey⟩ := List.mem_map.mp hmem
      exact keepFirst_key_not_mem_seen key hy (hkey ▸ List.mem_cons_self _ _)

theorem keepFirst_eq_self (key : α → β) {seen : List β} {l : List α}
    (hnd : (l.map key).Nodup) (hdisj : ∀ y ∈ l, key y ∉ seen) :
    keepFirst key seen l = l := by
  induction l generalizing seen with
  | nil => simp [keepFirst]
  | cons x xs ih =>
    unfold keepFirst
    rw [if_neg (hdisj x (List.mem_cons_self _ _))]
    rw [List.map_cons, List.nodup_cons] at hnd
    congr 1
    refine ih hnd.2 ?_
    intro y hy
    simp only [List.mem_cons, not_or]
    refine ⟨?_, hdisj y (List.mem_cons_of_mem _ hy)⟩
    intro he
    exact hnd.1 (he ▸ List.mem_map_of_mem key hy)

/-! ## Lemma toolkit: range-indexed rows -/

theorem rangeRows_length (start : Int) (vs : List (List Value)) :
    (rangeRows start vs).length = vs.length := by
  induction vs generalizing start with
  | nil => simp [rangeRows]
  | cons v rest ih => simp [rangeRows, ih]

theorem rangeRows_get? (vs : List (List Value)) (start : Int) (i : Nat) :
    (rangeRows start vs).get? i = (vs.get? i).map fun v => (start + i, v) := by
  induction vs generalizing start i with
  | nil => simp [rangeRows]
  | cons v rest ih =>
    cases i with
    | zero => simp [rangeRows]
    | succ n =>
      have harith : start + 1 + (n : Int) = start + ((n + 1 : Nat) : Int) := by push_cast; ring
      show (rangeRows (start + 1) rest).get? n = ((v :: rest).get? (n + 1)).map _
      rw [ih, List.get?_cons_succ]
      simp only [harith]

theorem rangeRows_map (start : Int) (vs : List (List Value)) (g : List Value → List Value) :
    (rangeRows start vs).map (fun r => (r.1, g r.2)) = rangeRows start (vs.map g) := by
  induction vs generalizing start with
  | nil => simp [rangeRows]
  | cons v rest ih => simp [rangeRows, ih]

theorem find?_rangeRows (vs : List (List Value)) (start ℓ : Int) :
    (rangeRows start vs).find? (fun r => r.1 = ℓ) =
      if start ≤ ℓ then (vs.get? (ℓ - start).toNat).map fun v => (ℓ, v) else none := by
  induction vs generalizing start with
  | nil => simp [rangeRows]
  | cons v rest ih =>
    rw [rangeRows, List.find?_cons]
    by_cases he : start = ℓ
    · subst he
      simp
    · have hd : (decide (start = ℓ)) = false := by simp [he]
      rw [hd, ih]
      by_cases hle : start ≤ ℓ
      · have h1 : start + 1 ≤ ℓ := by omega
        have h2 : (ℓ - start).toNat = (ℓ - (start + 1)).toNat + 1 := by omega
        simp [hle, h1, h2]
      · have h1 : ¬(start + 1 ≤ ℓ) := by omega
        simp [hle, h1]

/-! ## Lemma toolkit: joins and scraped normalization -/

theorem posJoinRows_get? (rights : List (Int × List Value)) (nulls : List Value)
    (lr : List (Int × List Value)) (i : Nat) :
    (posJoinRows rights nulls lr).get? i = (lr.get? i).map fun r =>
      (r.1, r.2 ++ (match rights.get? i with | some r' => r'.2 | none => nulls)) := by
  induction lr generalizing rights i with
  | nil => simp [posJoinRows]
  | cons r rest ih =>
    cases i with
    | zero => cases rights <;> simp [posJoinRows]
    | succ n =>
      show (posJoinRows (rights.drop 1) nulls rest).get? n = _
      rw [ih]
      cases rights <;> rfl

theorem mergeOnIndex_rows_get? (left right : DF) (i : Nat) :
    (mergeOnIndex left right).rows.get? i = (left.rows.get? i).map fun r =>
      match right.rows.find? (fun r' => r'.1 = r.1) with
      | some r' => (r.1, r.2 ++ r'.2)
      | none => (r.1, r.2 ++ right.cols.map fun _ => Value.null) := by
  simp [mergeOnIndex, List.get?_map]

theorem mergeOnIndex_length (left right : DF) :
    (mergeOnIndex left right).rows.length = left.rows.length := by
  simp [mergeOnIndex]

theorem normScraped_rows (rows : List (Int × List Value)) :
    (normScraped { cols := ["title", "price", "availability"], rows := rows }).rows =
      rows.map fun r =>
        (r.1, (r.2 ++ [priceCoerce (readCell ["title", "price", "availability"] "price" r.2)]).eraseIdx 1) := by
  unfold normScraped DF.setColFrom DF.dropCol DF.rename
  simp [colIdx, List.map_map]

theorem normScrapedDF_rows (items : List ScrapedItem) :
    (normScrapedDF items).rows = rangeRows 0 (items.map bookCells) := by
  cases items with
  | nil => rfl
  | cons it rest =>
    have hstd : DF.stdCols (mkScrapedDF (it :: rest)) =
        { cols := ["title", "price", "availability"],
          rows := rangeRows 0 ((it :: rest).map fun x =>
            [Value.str x.title, Value.str x.price, Value.str x.availability]) } := by
      unfold DF.stdCols mkScrapedDF
      congr 1
    show (normScraped (DF.stdCols (mkScrapedDF (it :: rest)))).rows = _
    rw [hstd, normScraped_rows,
      rangeRows_map 0 ((it :: rest).map fun x =>
          [Value.str x.title, Value.str x.price, Value.str x.availability])
        (fun cs => (cs ++ [priceCoerce (readCell ["title", "price", "availability"] "price" cs)]).eraseIdx 1),
      List.map_map]
    congr 1

theorem normScrapedDF_cols (it : ScrapedItem) (rest : List ScrapedItem) :
    (normScrapedDF (it :: rest)).cols = ["book_title", "book_availability", "book_price_gbp"] := by
  rfl

/-! ## Stage lemmas and claim theorems -/

set_option maxRecDepth 10000

theorem normSalesDF_absent {s : Option DF} (h : salesAbsent s = true) :
    normSalesDF s = DF.emptyDF := by
  cases s with
  | none => rfl
  | some df =>
    have hdf : df.empty = true := h
    simp [normSalesDF, hdf]
    rfl

theorem readCell_eq (cols : List String) (src : String) (cs : List Value) :
    readCell cols src cs = (getCell cols cs src).getD Value.null := rfl

/-- C1 counterexample: after `transform_data` returns, the caller's sales
DataFrame is not equal to what was passed in (Scenario A input: the null
`sale_amount` has been overwritten in place and new columns attached to the
caller's object). -/
theorem transform_data_mutates_sales :
    (transform_data none (some salesScenA) []).2 ≠ some salesScenA := by
  with_unfolding_all decide

/-- C1 amended: the weather dict and listings list are only read; the caller's
sales object is untouched when empty or absent, and otherwise ends as the
normalized, feature-engineered, weather-broadcast frame. -/
theorem transform_data_sales_state (w : Option WeatherData) (s : Option DF) (l : List ScrapedItem) :
    (salesAbsent s = true → (transform_data w s l).2 = s) ∧
    (transform_data w s l).2 = (if (normSalesDF s).empty then s
      else some (weatherStep (normWeatherDF w) (normSalesDF s))) := by
  constructor
  · intro h
    unfold transform_data
    rw [normSalesDF_absent h]
    rfl
  · unfold transform_data
    by_cases h : (normSalesDF s).empty <;> simp [h]

theorem transform_data_sales_state_witness :
    (transform_data (some wLondon) (some DF.emptyDF) [bookA]).2 = some DF.emptyDF :=
  (transform_data_sales_state (some wLondon) (some DF.emptyDF) [bookA]).1 rfl

/-- C2: when the sales input is absent or empty, `transform_data` returns the
empty frame whatever the weather and listings inputs hold. -/
theorem transform_data_empty_sales (w : Option WeatherData) (l : List ScrapedItem)
    (s : Option DF) (h : salesAbsent s = true) :
    (transform_data w s l).1 = DF.emptyDF := by
  unfold transform_data
  rw [normSalesDF_absent h]
  rfl

theorem transform_data_empty_sales_witness :
    salesAbsent (some { cols := ["product_id", "sale_date", "sale_amount"], rows := [] }) = true ∧
    (transform_data (some wLondon)
      (some { cols := ["product_id", "sale_date", "sale_amount"], rows := [] }) [bookA]).1 = DF.emptyDF :=
  ⟨rfl, transform_data_empty_sales (some wLondon) [bookA] _ rfl⟩

/-- C3: the Deduplicator keeps, for every composite key, exactly the first row
carrying it, in original row order (the output is a sublist of the input). -/
theorem dropDuplicates_first_of_each_group (df : DF) :
    (df.dropDuplicates).rows.Sublist df.rows ∧
    ∀ k r, df.rows.find? (fun r' => rowKey df.cols r'.2 = k) = some r →
      (df.dropDuplicates).rows.filter (fun r' => rowKey df.cols r'.2 = k) = [r] := by
  constructor
  · exact keepFirst_sublist _ _ _
  · intro k r hfind
    show (keepFirst (fun r' => rowKey df.cols r'.2) [] df.rows).filter _ = [r]
    rw [keepFirst_filter_eq (fun r' => rowKey df.cols r'.2) df.rows k (by simp), hfind]

theorem dropDuplicates_first_of_each_group_witness :
    (dupJoined.dropDuplicates).rows.Sublist dupJoined.rows ∧
    (dupJoined.dropDuplicates).rows.filter
        (fun r' => rowKey dupJoined.cols r'.2 =
          [some (.int 1), some (.date ⟨2023, 1, 1⟩), some (.rat 10)]) =
      [(0, [.int 1, .date ⟨2023, 1, 1⟩, .rat 10])] :=
  ⟨(dropDuplicates_first_of_each_group dupJoined).1,
   (dropDuplicates_first_of_each_group dupJoined).2 _ _ (by with_unfolding_all rfl)⟩

/-- C6: with at least one non-missing amount, every missing `sale_amount` is
replaced by the batch mean; Scenario A runs end to end as specified (the mean
10.0 fills the null, the keys collide and dedup keeps only the first row). -/
theorem imputeSaleAmount_fills_mean :
    (∀ (df : DF) (q : Rat) (i : Nat) (r : Int × List Value), df.Rect →
      meanCol (df.col? "sale_amount") = some q →
      df.rows.get? i = some r →
      getCell df.cols r.2 "sale_amount" = some .null →
      ∃ cs', (imputeSaleAmount df).rows.get? i = some (r.1, cs') ∧
        getCell (imputeSaleAmount df).cols cs' "sale_amount" = some (.rat q)) ∧
    (transform_data none (some salesScenA) []).1 = outScenA := by
  constructor
  · intro df q i r hrect hmean hi hnull
    unfold imputeSaleAmount
    obtain ⟨cs', hrow, hself, -⟩ :=
      setColFrom_get hrect hi "sale_amount" "sale_amount" (fillnaVal (meanCol (df.col? "sale_amount")))
    refine ⟨cs', hrow, ?_⟩
    rw [hself, readCell_eq, hnull, hmean]
    rfl
  · with_unfolding_all rfl

theorem imputeSaleAmount_fills_mean_witness :
    ∃ cs', (imputeSaleAmount salesScenA).rows.get? 0 = some (0, cs') ∧
      getCell (imputeSaleAmount salesScenA).cols cs' "sale_amount" = some (.rat 10) :=
  imputeSaleAmount_fills_mean.1 salesScenA 10 0 (0, [.int 1, .str "2023-01-01", .null])
    (by intro r hr; fin_cases hr <;> rfl)
    (by with_unfolding_all rfl) (by with_unfolding_all rfl) (by with_unfolding_all rfl)

/-- C7: the Source Normalizer is total on malformed field values — a listing
whose price fails to parse gets the 0.0 sentinel while the whole batch is still
processed row by row, an unparseable `product_id` cell coerces to 0, and an
invalid `sale_date` string coerces to null. -/
theorem normalizer_sentinels :
    (∀ (items : List ScrapedItem) (i : Nat) (it : ScrapedItem), items.get? i = some it →
      (normScrapedDF items).rows.get? i = some ((i : Int), bookCells it)) ∧
    (∀ s : String, toNumeric (stripPound (.str s)) = none → priceCoerce (.str s) = .rat 0) ∧
    (∀ v : Value, toNumeric v = none → pidCoerce v = .int 0) ∧
    (∀ s : String, parseDateStr s = none → toDatetime (.str s) = .null) := by
  refine ⟨?_, ?_, ?_, ?_⟩
  · intro items i it hi
    rw [normScrapedDF_rows, rangeRows_get?, List.get?_map, hi]
    simp
  · intro s h
    simp [priceCoerce, h]
    rfl
  · intro v h
    simp [pidCoerce, h]
  · intro s h
    simp [toDatetime, h]

theorem normalizer_sentinels_witness :
    ((normScrapedDF [{ title := "T", price := "abc", availability := "A" }]).rows.get? 0 =
      some ((0 : Int), bookCells { title := "T", price := "abc", availability := "A" })) ∧
    priceCoerce (.str "abc") = .rat 0 ∧
    pidCoerce (.str "zz") = .int 0 ∧
    toDatetime (.str "2023-13-99") = .null :=
  ⟨normalizer_sentinels.1 _ 0 _ rfl,
   normalizer_sentinels.2.1 "abc" (by with_unfolding_all rfl),
   normalizer_sentinels.2.2.1 (.str "zz") (by with_unfolding_all rfl),
   normalizer_sentinels.2.2.2 "2023-13-99" (by with_unfolding_all rfl)⟩

/-- C8 counterexample: a sales row with `product_id` "-5" survives
normalization as the negative integer -5 — the coercion does not enforce
non-negativity. -/
theorem pid_negative_passes_through :
    (transform_data none (some salesNegPid) []).1 =
      { cols := ["product_id", "sale_date", "sale_amount", "sale_month", "sale_day_name"],
        rows := [(0, [.int (-5), .date ⟨2023, 1, 1⟩, .rat 1, .int 1, .str "Sunday"])] } ∧
    ¬(0 ≤ (-5 : Int)) := by
  constructor
  · with_unfolding_all rfl
  · decide

/-- C8 amended: after type coercion every `product_id` cell is an integer
(`pd.to_numeric(..., errors='coerce').fillna(0).astype(int)`), with unparseable
values mapped to 0; the sign of parseable values is preserved, so negative
inputs stay negative. -/
theorem pid_always_int :
    (∀ v : Value, ∃ n : Int, pidCoerce v = .int n ∧ (toNumeric v = none → n = 0)) ∧
    (∀ (df : DF) (i : Nat) (r : Int × List Value), df.Rect → df.rows.get? i = some r →
      ∃ cs', (coerceSalesTypes df).rows.get? i = some (r.1, cs') ∧
        getCell (coerceSalesTypes df).cols cs' "product_id" =
          some (pidCoerce (readCell df.cols "product_id" r.2))) := by
  constructor
  · intro v
    refine ⟨_, rfl, ?_⟩
    intro h
    simp [h]
  · intro df i r hrect hi
    unfold coerceSalesTypes
    obtain ⟨cs₁, hrow₁, hset₁, hoth₁⟩ := setColFrom_get hrect hi "sale_date" "sale_date" toDatetime
    have hrect₁ := setColFrom_rect hrect "sale_date" "sale_date" toDatetime
    obtain ⟨cs₂, hrow₂, hset₂, hoth₂⟩ := setColFrom_get hrect₁ hrow₁ "product_id" "product_id" pidCoerce
    refine ⟨cs₂, hrow₂, ?_⟩
    rw [hset₂]
    congr 1
    show pidCoerce (readCell _ "product_id" cs₁) = _
    rw [readCell_eq, readCell_eq, hoth₁ "product_id" (by decide)]

theorem pid_always_int_witness :
    ∃ cs', (coerceSalesTypes salesNegPid).rows.get? 0 = some (0, cs') ∧
      getCell (coerceSalesTypes salesNegPid).cols cs' "product_id" =
        some (pidCoerce (readCell salesNegPid.cols "product_id"
          [.str "-5", .str "2023-01-01", .rat 1])) :=
  pid_always_int.2 salesNegPid 0 (0, [.str "-5", .str "2023-01-01", .rat 1])
    (by intro r hr; fin_cases hr <;> rfl) (by with_unfolding_all rfl)

/-- Scalar broadcast over a list of columns, row by row: every broadcast column
holds its broadcast value, every other column is untouched, and labels, row
count and rectangularity are preserved. -/
theorem broadcast_fold (cs : List String) (vals : String → Value) (df : DF) (hrect : df.Rect) :
    (cs.foldl (fun d c => d.setColFrom c c fun _ => vals c) df).Rect ∧
    (cs.foldl (fun d c => d.setColFrom c c fun _ => vals c) df).rows.length = df.rows.length ∧
    ∀ i r, df.rows.get? i = some r →
      ∃ cs', (cs.foldl (fun d c => d.setColFrom c c fun _ => vals c) df).rows.get? i = some (r.1, cs') ∧
        (∀ c, c ∈ cs →
          getCell (cs.foldl (fun d c => d.setColFrom c c fun _ => vals c) df).cols cs' c = some (vals c)) ∧
        (∀ d, d ∉ cs →
          getCell (cs.foldl (fun d c => d.setColFrom c c fun _ => vals c) df).cols cs' d =
            getCell df.cols r.2 d) := by
  induction cs generalizing df with
  | nil =>
    refine ⟨hrect, rfl, fun i r hi => ⟨r.2, ?_, by simp, fun d _ => rfl⟩⟩
    simpa using hi
  | cons c₀ rest ih =>
    have hrect₁ := setColFrom_rect hrect c₀ c₀ (fun _ => vals c₀)
    obtain ⟨hrect₂, hlen₂, hrows₂⟩ := ih (df.setColFrom c₀ c₀ fun _ => vals c₀) hrect₁
    refine ⟨hrect₂, by rw [List.foldl_cons, hlen₂, setColFrom_length], ?_⟩
    intro i r hi
    simp only [List.foldl_cons]
    obtain ⟨cs₁, hrow₁, hval₁, hoth₁⟩ := setColFrom_get hrect hi c₀ c₀ (fun _ => vals c₀)
    obtain ⟨cs₂, hrow₂, hin₂, hout₂⟩ := hrows₂ i (r.1, cs₁) hrow₁
    refine ⟨cs₂, hrow₂, ?_, ?_⟩
    · intro c hc
      rcases List.mem_cons.mp hc with rfl | hcr
      · by_cases hcrest : c ∈ rest
        · exact hin₂ c hcrest
        · rw [hout₂ c hcrest]
          exact hval₁
      · exact hin₂ c hcr
    · intro d hd
      simp only [List.mem_cons, not_or] at hd
      rw [hout₂ d hd.2]
      exact hoth₁ d hd.1

/-- C5: the Broadcast Merger preserves the sales row count on both paths; with
a present weather dict every output row carries the weather frame's first (and
only) row's value in each of the six weather columns; with an empty weather
frame the sales frame passes through unchanged (no weather fields attached). -/
theorem broadcast_weather_spec :
    (∀ (wdf sales : DF), sales.Rect → (weatherStep wdf sales).rows.length = sales.rows.length) ∧
    (∀ (w : WeatherData) (sales : DF), sales.Rect →
      ∀ i r, sales.rows.get? i = some r →
        ∃ cs', (weatherStep (normWeatherDF (some w)) sales).rows.get? i = some (r.1, cs') ∧
          ∀ c, c ∈ weatherCols →
            getCell (weatherStep (normWeatherDF (some w)) sales).cols cs' c =
              some ((normWeatherDF (some w)).firstVal c)) ∧
    (∀ (wdf sales : DF), wdf.empty = true → weatherStep wdf sales = sales) := by
  refine ⟨?_, ?_, ?_⟩
  · intro wdf sales hrect
    unfold weatherStep
    by_cases h : wdf.empty
    · simp [h]
    · simp only [h, Bool.not_false, if_pos]
      exact (broadcast_fold wdf.cols wdf.firstVal sales hrect).2.1
  · intro w sales hrect i r hi
    have hne : (normWeatherDF (some w)).empty = false := rfl
    have hcols : (normWeatherDF (some w)).cols = weatherCols := rfl
    show ∃ cs', (weatherStep (normWeatherDF (some w)) sales).rows.get? i = some (r.1, cs') ∧ _
    unfold weatherStep
    rw [hne]
    simp only [Bool.not_false, if_pos]
    unfold broadcastWeather
    rw [hcols]
    obtain ⟨cs', hrow, hin, -⟩ :=
      (broadcast_fold weatherCols (normWeatherDF (some w)).firstVal sales hrect).2.2 i r hi
    exact ⟨cs', hrow, hin⟩
  · intro wdf sales h
    unfold weatherStep
    simp [h]

theorem broadcast_weather_spec_witness :
    ∃ cs', (weatherStep (normWeatherDF (some wLondon)) sales3).rows.get? 0 = some (0, cs') ∧
      ∀ c, c ∈ weatherCols →
        getCell (weatherStep (normWeatherDF (some wLondon)) sales3).cols cs' c =
          some ((normWeatherDF (some wLondon)).firstVal c) := by
  obtain ⟨cs', hrow, hin⟩ := broadcast_weather_spec.2.1 wLondon sales3
    (by intro r hr; fin_cases hr <;> rfl) 0 (0, [.int 1, .str "2023-01-01", .rat 1]) rfl
  exact ⟨cs', hrow, hin⟩

/-- C4 counterexample: on a sales frame whose index labels are (1, 0), the
first sales row receives the *second* listing's book fields — the join is not
positional as claimed. -/
theorem positional_claim_fails_on_nondefault_index :
    (transform_data none (some salesSwapped) [bookA, bookB]).1 = outSwapped ∧
    getCell outSwapped.cols
        [Value.int 1, .date ⟨2023, 1, 1⟩, .rat 5, .int 1, .str "Sunday",
         .str "Book B", .str "In stock", .rat (9 / 4)] "book_title" = some (.str bookB.title) ∧
    Value.str bookB.title ≠ Value.str bookA.title := by
  refine ⟨?_, ?_, ?_⟩
  · with_unfolding_all rfl
  · with_unfolding_all rfl
  · with_unfolding_all decide

/-- C10: the listings join is an index-label join.  When the sales rows carry
the default 0-based consecutive RangeIndex (the scraped frame always does), it
coincides with the spec's positional join; in general, each left row labelled
ℓ receives the cells of the right row whose label equals ℓ — nulls when none
does — independent of row positions. -/
theorem label_join_refines_positional :
    (∀ (left : DF) (vsL : List (List Value)) (items : List ScrapedItem),
      left.rows = rangeRows 0 vsL →
      joinStep (normScrapedDF items) left = positionalJoinSpec left (normScrapedDF items)) ∧
    (∀ (left right : DF) (i : Nat) (r : Int × List Value), left.rows.get? i = some r →
      (mergeOnIndex left right).rows.get? i =
        some (match right.rows.find? (fun r' => r'.1 = r.1) with
              | some r' => (r.1, r.2 ++ r'.2)
              | none => (r.1, r.2 ++ right.cols.map fun _ => Value.null))) := by
  constructor
  · intro left vsL items hL
    cases items with
    | nil => rfl
    | cons it rest =>
      have hrows := normScrapedDF_rows (it :: rest)
      have hcols := normScrapedDF_cols it rest
      have hne : (normScrapedDF (it :: rest)).empty = false := by
        unfold DF.empty
        rw [hrows, hcols]
        simp [rangeRows]
      have hposne : (normScrapedDF (it :: rest)).rows.isEmpty = false := by
        rw [hrows]
        simp [rangeRows]
      unfold joinStep positionalJoinSpec
      rw [hne, hposne]
      simp only [Bool.not_false, if_pos, Bool.false_eq_true, if_false]
      unfold mergeOnIndex
      congr 1
      apply List.ext
      intro n
      rw [posJoinRows_get?, List.get?_map]
      cases hv : left.rows.get? n with
      | none => simp
      | some r =>
        have hr : r = ((n : Int), (vsL.get? n).getD []) := by
          rw [hL, rangeRows_get?] at hv
          cases hvs : vsL.get? n with
          | none => rw [hvs] at hv; simp at hv
          | some v => rw [hvs] at hv; simp at hv; simp [hvs, ← hv]
        simp only [Option.map_some']
        rw [hrows, find?_rangeRows]
        have h0 : ((0 : Int) ≤ r.1) := by rw [hr]; simp
        rw [if_pos h0]
        have htn : (r.1 - 0).toNat = n := by rw [hr]; simp
        rw [htn, rangeRows_get?]
        cases hb : (List.map bookCells (it :: rest)).get? n with
        | none => simp [hb]
        | some b => simp [hb]
  · intro left right i r hi
    rw [mergeOnIndex_rows_get?, hi]
    rfl

theorem label_join_refines_positional_witness :
    joinStep (normScrapedDF [bookA]) { cols := ["product_id"], rows := rangeRows 0 [[Value.int 7]] } =
      positionalJoinSpec { cols := ["product_id"], rows := rangeRows 0 [[Value.int 7]] }
        (normScrapedDF [bookA]) ∧
    (mergeOnIndex salesSwapped (normScrapedDF [bookA, bookB])).rows.get? 0 =
      some (match (normScrapedDF [bookA, bookB]).rows.find? (fun r' => r'.1 = (1 : Int)) with
            | some r' => ((1 : Int), [Value.int 1, .str "2023-01-01", .rat 5] ++ r'.2)
            | none => ((1 : Int), [Value.int 1, .str "2023-01-01", .rat 5] ++
                (normScrapedDF [bookA, bookB]).cols.map fun _ => Value.null)) :=
  ⟨label_join_refines_positional.1 _ [[Value.int 7]] [bookA] rfl,
   label_join_refines_positional.2 salesSwapped (normScrapedDF [bookA, bookB]) 0
     (1, [Value.int 1, .str "2023-01-01", .rat 5]) rfl⟩

/-- C4 amended: the Positional-Joiner behaviour holds whenever the sales frame
carries the default 0-based RangeIndex: the left join keeps all n sales rows,
row i receives the book fields of listing i when one exists and null book
fields otherwise, and an empty listings input passes sales through unchanged.
(For any other index the pairing follows index labels instead — see the
refinement theorem and the counterexample.) -/
theorem positional_join_on_default_index :
    (∀ (left : DF) (items : List ScrapedItem),
      (joinStep (normScrapedDF items) left).rows.length = left.rows.length) ∧
    (∀ (left : DF) (vsL : List (List Value)) (it : ScrapedItem) (rest : List ScrapedItem),
      left.rows = rangeRows 0 vsL →
      ∀ i v, vsL.get? i = some v →
        (joinStep (normScrapedDF (it :: rest)) left).rows.get? i =
          some ((i : Int), v ++ (match (it :: rest).get? i with
            | some b => bookCells b
            | none => [Value.null, Value.null, Value.null]))) ∧
    (∀ left : DF, joinStep (normScrapedDF []) left = left) := by
  refine ⟨?_, ?_, ?_⟩
  · intro left items
    unfold joinStep
    by_cases h : (normScrapedDF items).empty
    · simp [h]
    · simp only [h, Bool.not_false, if_pos]
      exact mergeOnIndex_length left (normScrapedDF items)
  · intro left vsL it rest hL i v hv
    have hrows := normScrapedDF_rows (it :: rest)
    have hcols := normScrapedDF_cols it rest
    have hne : (normScrapedDF (it :: rest)).empty = false := by
      unfold DF.empty
      rw [hrows, hcols]
      simp [rangeRows]
    unfold joinStep
    rw [hne]
    simp only [Bool.not_false, if_pos]
    rw [mergeOnIndex_rows_get?, hL, rangeRows_get?, hv]
    simp only [Option.map_some']
    rw [hrows, find?_rangeRows]
    have h0 : ((0 : Int) ≤ 0 + (i : Int)) := by simp
    rw [if_pos h0]
    have htn : ((0 + (i : Int)) - 0).toNat = i := by simp
    rw [htn, List.get?_map]
    cases hb : (it :: rest).get? i with
    | none => simp [hcols]
    | some b => simp
  · intro left
    rfl

theorem positional_join_on_default_index_witness :
    ((joinStep (normScrapedDF [bookA]) sales3).rows.get? 0 =
      some ((0 : Int), [Value.int 1, .str "2023-01-01", .rat 1] ++ bookCells bookA)) ∧
    ((joinStep (normScrapedDF [bookA]) sales3).rows.get? 1 =
      some ((1 : Int), [Value.int 2, .str "2023-01-02", .rat 2] ++
        [Value.null, Value.null, Value.null])) :=
  ⟨positional_join_on_default_index.2.1 sales3
      [[Value.int 1, .str "2023-01-01", .rat 1], [Value.int 2, .str "2023-01-02", .rat 2],
       [Value.int 3, .str "2023-01-03", .rat 3]] bookA [] rfl 0 _ rfl,
   positional_join_on_default_index.2.1 sales3
      [[Value.int 1, .str "2023-01-01", .rat 1], [Value.int 2, .str "2023-01-02", .rat 2],
       [Value.int 3, .str "2023-01-03", .rat 3]] bookA [] rfl 1 _ rfl⟩

theorem stdCols_rows (df : DF) : (df.stdCols).rows = df.rows := rfl

theorem stdCols_empty (df : DF) : (df.stdCols).empty = df.empty := by
  unfold DF.stdCols DF.empty
  cases df.cols <;> cases df.rows <;> simp

theorem weatherStep_length (wdf sales : DF) :
    (weatherStep wdf sales).rows.length = sales.rows.length := by
  have hfold : ∀ (cs : List String) (g : DF),
      (cs.foldl (fun d c => d.setColFrom c c fun _ => wdf.firstVal c) g).rows.length =
        g.rows.length := by
    intro cs
    induction cs with
    | nil => intro g; rfl
    | cons c rest ih =>
      intro g
      rw [List.foldl_cons, ih, setColFrom_length]
  unfold weatherStep broadcastWeather
  by_cases h : wdf.empty
  · simp [h]
  · simp only [h, Bool.not_false, if_pos]
    exact hfold wdf.cols sales

theorem joinStep_length (sdf mdf : DF) :
    (joinStep sdf mdf).rows.length = mdf.rows.length := by
  unfold joinStep
  by_cases h : sdf.empty
  · simp [h]
  · simp only [h, Bool.not_false, if_pos]
    exact mergeOnIndex_length mdf sdf

theorem preDedup_length (w : Option WeatherData) (s : Option DF) (l : List ScrapedItem) :
    (preDedup w s l).rows.length = (normSalesDF s).rows.length := by
  unfold preDedup
  rw [joinStep_length, weatherStep_length]

theorem normSalesDF_length (df : DF) (h : df.empty = false) :
    (normSalesDF (some df)).rows.length = df.rows.length := by
  have h1 : ∀ g : DF, (imputeSaleAmount g).rows.length = g.rows.length :=
    fun g => setColFrom_length g _ _ _
  have h2 : ∀ g : DF, (coerceSalesTypes g).rows.length = g.rows.length := by
    intro g
    unfold coerceSalesTypes
    rw [setColFrom_length, setColFrom_length]
  have h3 : ∀ g : DF, (addDateFeatures g).rows.length = g.rows.length := by
    intro g
    unfold addDateFeatures
    rw [setColFrom_length, setColFrom_length]
  unfold normSalesDF
  simp only [h, Bool.false_eq_true, if_false]
  repeat' split
  all_goals simp [h1, h2, h3, stdCols_rows]

theorem dedupStep_eq_dropDuplicates (df : DF) : dedupStep df = df.dropDuplicates := by
  unfold dedupStep
  by_cases h : dupCount df > 0
  · simp [h]
  · simp only [h, if_false]
    have hle := (keepFirst_sublist (fun r => rowKey df.cols r.2) [] df.rows).length_le
    have hdd : df.dropDuplicates.rows = keepFirst (fun r => rowKey df.cols r.2) [] df.rows := rfl
    have hlen : (keepFirst (fun r => rowKey df.cols r.2) [] df.rows).length = df.rows.length := by
      unfold dupCount at h
      rw [hdd] at h
      omega
    have heq := (keepFirst_sublist (fun r => rowKey df.cols r.2) [] df.rows).eq_of_length hlen
    show df = df.dropDuplicates
    unfold DF.dropDuplicates
    rw [heq]

theorem dedupStep_length_le (df : DF) : (dedupStep df).rows.length ≤ df.rows.length := by
  rw [dedupStep_eq_dropDuplicates]
  exact (keepFirst_sublist (fun r => rowKey df.cols r.2) [] df.rows).length_le

theorem normSalesDF_empty_false {df : DF} (h : (normSalesDF (some df)).empty = false) :
    df.empty = false := by
  by_contra hc
  have : df.empty = true := by
    cases he : df.empty
    · exact absurd he hc
    · rfl
  rw [normSalesDF_absent (show salesAbsent (some df) = true from this)] at h
  exact absurd h (by decide)

/-- C9 counterexample: the Scenario A input rows carry pairwise distinct raw
composite keys, yet the output has one row against two input rows — mean
imputation made the keys collide, so "no two input rows share a key" does not
imply count preservation. -/
theorem output_count_differs_with_distinct_input_keys :
    List.Pairwise (fun r r' => rowKey salesScenA.cols r.2 ≠ rowKey salesScenA.cols r'.2)
      salesScenA.rows ∧
    (transform_data none (some salesScenA) []).1.rows.length = 1 ∧
    salesScenA.rows.length = 2 := by
  refine ⟨?_, ?_, rfl⟩
  · with_unfolding_all decide
  · with_unfolding_all rfl

/-- C9 amended: the final output's composite keys are pairwise distinct and its
row count never exceeds the input sales row count; the count is preserved
exactly when the fully joined (normalized) table — not the raw input — has
pairwise distinct keys and the normalized sales table is non-empty. -/
theorem output_keys_unique :
    (∀ (w : Option WeatherData) (s : Option DF) (l : List ScrapedItem),
      List.Pairwise (fun r r' =>
        rowKey (transform_data w s l).1.cols r.2 ≠ rowKey (transform_data w s l).1.cols r'.2)
        (transform_data w s l).1.rows) ∧
    (∀ (w : Option WeatherData) (df : DF) (l : List ScrapedItem),
      (transform_data w (some df) l).1.rows.length ≤ df.rows.length) ∧
    (∀ (w : Option WeatherData) (s : Option DF) (l : List ScrapedItem),
      (normSalesDF s).empty = false →
      List.Pairwise (fun r r' =>
        rowKey (preDedup w s l).cols r.2 ≠ rowKey (preDedup w s l).cols r'.2)
        (preDedup w s l).rows →
      (transform_data w s l).1.rows.length = (normSalesDF s).rows.length) ∧
    (∀ df : DF, df.empty = false → (normSalesDF (some df)).rows.length = df.rows.length) := by
  refine ⟨?_, ?_, ?_, normSalesDF_length⟩
  · intro w s l
    unfold transform_data
    by_cases h : (normSalesDF s).empty
    · simp [h, DF.emptyDF]
    · simp only [h, Bool.false_eq_true, if_false]
      rw [dedupStep_eq_dropDuplicates]
      have hnd := keepFirst_keys_nodup
        (fun r => rowKey (preDedup w s l).cols r.2) [] (preDedup w s l).rows
      rw [List.Nodup, List.pairwise_map] at hnd
      exact hnd
  · intro w df l
    unfold transform_data
    by_cases h : (normSalesDF (some df)).empty
    · simp [h, DF.emptyDF]
    · simp only [h, Bool.false_eq_true, if_false]
      calc (dedupStep (preDedup w (some df) l)).rows.length
          ≤ (preDedup w (some df) l).rows.length := dedupStep_length_le _
        _ = (normSalesDF (some df)).rows.length := preDedup_length w (some df) l
        _ = df.rows.length := normSalesDF_length df (normSalesDF_empty_false (by simpa using h))
  · intro w s l hne hpw
    unfold transform_data
    simp only [hne, Bool.false_eq_true, if_false]
    rw [dedupStep_eq_dropDuplicates]
    have hnodup : ((preDedup w s l).rows.map fun r => rowKey (preDedup w s l).cols r.2).Nodup := by
      rw [List.Nodup, List.pairwise_map]
      exact hpw
    have heq : (preDedup w s l).dropDuplicates.rows = (preDedup w s l).rows := by
      unfold DF.dropDuplicates
      exact keepFirst_eq_self _ hnodup (fun y _ => List.not_mem_nil _)
    rw [heq, preDedup_length]

theorem output_keys_unique_witness :
    (transform_data none (some sales3) []).1.rows.length = (normSalesDF (some sales3)).rows.length :=
  output_keys_unique.2.2.1 none (some sales3) [] (by with_unfolding_all rfl)
    (by with_unfolding_all decide)

end Transform
